import Mathlib

/-!
Shallow embedding of the cycle-simulator core (`simulator.cpp`, together with
`source.h`, `instruction.h`, `event.h`): a tiny pipelined machine with a
register file of 16 one-byte registers, 1024 one-byte memory cells, a cycle
counter `clk` and five stage-visit counters.  C++ `uint8_t` storage is
modelled as `Nat` values truncated modulo 256 on every write; the C++ `int`
intermediates are modelled as `Int`.  The `std::logic_error` thrown by
`put_value` on an `ImmidiateSource` destination is modelled with
`Except String`.
-/

namespace CycleSim

/-- `enum struct BinaryOperation` from `instruction.h`. -/
inductive BinaryOperation where
  | ADD
  | SUB

/-- `Source` variant from `source.h`: `DirectSource{reg}`, `IndirectSource{addr}`,
`ImmidiateSource{value}`.  Register and memory indices carry the declared
bounds (`regs[16]`, `data[1024]`); callers are trusted to supply in-bounds
indices, which the C++ code never checks. -/
inductive Source where
  | direct (reg : Fin 16)
  | indirect (addr : Fin 1024)
  | immediate (value : Int)

/-- `struct UnaryInstruction` from `instruction.h`. -/
structure UnaryInstruction where
  op1_addr : Source
  res_addr : Source

/-- `struct BinaryInstruction` from `instruction.h`. -/
structure BinaryInstruction where
  op1_addr : Source
  op2_addr : Source
  res_addr : Source
  op : BinaryOperation

/-- `struct JumpInstruction` from `instruction.h`. -/
structure JumpInstruction where
  offset_addr : Source

/-- `Instruction` variant from `instruction.h`. -/
inductive Instruction where
  | unary (i : UnaryInstruction)
  | binary (i : BinaryInstruction)
  | jump (i : JumpInstruction)

/-- `struct Op1Fetch` from `event.h`. -/
structure Op1Fetch where
  ins : Instruction

/-- `struct Op2Fetch` from `event.h`. -/
structure Op2Fetch where
  ins : Instruction
  op1 : Int

/-- `struct Execution` from `event.h` (legacy event, no producer). -/
structure Execution where
  ins : Instruction
  op1 : Int
  op2 : Int

/-- `struct Writeback` from `event.h`. -/
structure Writeback where
  ins : Instruction
  res : Int

/-- `struct Exception` from `event.h`. -/
structure Exception where
  msg : String

/-- `ExecutionEvent` variant from `event.h`. -/
inductive ExecutionEvent where
  | op1Fetch (e : Op1Fetch)
  | op2Fetch (e : Op2Fetch)
  | execution (e : Execution)
  | writeback (e : Writeback)
  | exception (e : Exception)

/-- The machine state of `struct State`: register file, memory, cycle counter
and stage counters. -/
@[ext]
structure State where
  regs : Fin 16 → Nat
  data : Fin 1024 → Nat
  clk : Nat
  fetch1 : Nat
  fetch2 : Nat
  exec : Nat
  writeback : Nat
  exceptions : Nat

/-- The C++ conversion of an `int` to `uint8_t`: value modulo 256. -/
def truncate8 (v : Int) : Nat := (v % 256).toNat

/-- `State::calculate`. -/
def calculate (bi : BinaryInstruction) (op1 op2 : Int) : Int :=
  match bi.op with
  | .ADD => op1 + op2
  | .SUB => op1 - op2

/-- `State::get_value`: resolve a read source (`uint8_t` storage values are
zero-extended to `int`). -/
def get_value (st : State) (source : Source) : Int :=
  match source with
  | .direct s => (st.regs s : Int)
  | .indirect s => (st.data s : Int)
  | .immediate v => v

/-- `State::put_value`: resolve a write destination; an immediate destination
throws `std::logic_error`. -/
def put_value (st : State) (source : Source) (value : Int) : Except String State :=
  match source with
  | .direct s => .ok { st with regs := Function.update st.regs s (truncate8 value) }
  | .indirect s => .ok { st with data := Function.update st.data s (truncate8 value) }
  | .immediate _ => .error "putting into immidiate source is prohibited by logic"

/-- `State::get_writeback`: perform the writeback on this cycle for a direct
destination (note: the code stores into `data[s.reg]`, i.e. indexes the
memory array with the register number), defer it for an indirect
destination, and raise a recoverable `Exception` event for an immediate
destination. -/
def get_writeback (st : State) (wr : Writeback) (res_addr : Source) :
    State × Option ExecutionEvent :=
  match res_addr with
  | .direct s =>
      ({ st with data := Function.update st.data (Fin.castLE (by omega) s) (truncate8 wr.res) },
        none)
  | .indirect _ => (st, some (.writeback wr))
  | .immediate _ => (st, some (.exception ⟨"ImmidiateSource is prohibited as result source"⟩))

/-- `State::fetch_direct_source`: build the `Writeback` record from resolved
operand values. -/
def fetch_direct_source (i : Instruction) (op1 op2 : Int) : Writeback :=
  match i with
  | .unary x => ⟨.unary x, op1⟩
  | .jump x => ⟨.jump x, op1⟩
  | .binary x => ⟨.binary x, calculate x op1 op2⟩

/-- `State::get_fetch2`: resolve operand 2 when it is available this cycle,
otherwise defer with an `Op2Fetch` event. -/
def get_fetch2 (st : State) (e : Op2Fetch) : State × Option ExecutionEvent :=
  let src : Source :=
    match e.ins with
    | .binary i => i.op2_addr
    | .unary _ => .direct 0
    | .jump _ => .direct 0
  let res : Source :=
    match e.ins with
    | .binary i => i.res_addr
    | .unary i => i.res_addr
    | .jump _ => .direct 0
  match src with
  | .direct s => get_writeback st (fetch_direct_source e.ins e.op1 (st.regs s : Int)) res
  | .immediate v => get_writeback st (fetch_direct_source e.ins e.op1 v) res
  | .indirect _ => (st, some (.op2Fetch e))

/-- `State::get_fetch1`: resolve operand 1 when it is available this cycle,
otherwise defer with an `Op1Fetch` event. -/
def get_fetch1 (st : State) (ins : Instruction) : State × Option ExecutionEvent :=
  let src : Source :=
    match ins with
    | .binary i => i.op1_addr
    | .unary i => i.op1_addr
    | .jump i => i.offset_addr
  match src with
  | .direct s => get_fetch2 st ⟨ins, (st.regs s : Int)⟩
  | .immediate v => get_fetch2 st ⟨ins, v⟩
  | .indirect _ => (st, some (.op1Fetch ⟨ins⟩))

/-- `State::handle_event(const Op1Fetch&)`. -/
def handle_event_op1fetch (st : State) (event : Op1Fetch) : State × Option ExecutionEvent :=
  let st := { st with fetch1 := st.fetch1 + 1 }
  match event.ins with
  | .binary i => get_fetch2 st ⟨.binary i, get_value st i.op1_addr⟩
  | .unary i => (st, some (.writeback ⟨.unary i, get_value st i.op1_addr⟩))
  | .jump i => (st, some (.writeback ⟨.jump i, get_value st i.offset_addr⟩))

/-- `State::handle_event(const Op2Fetch&)` (note: the binary branch adds
`event.op1 + get_value(i.op2_addr)` unconditionally, regardless of `i.op`). -/
def handle_event_op2fetch (st : State) (event : Op2Fetch) : State × Option ExecutionEvent :=
  let st := { st with fetch2 := st.fetch2 + 1 }
  match event.ins with
  | .binary i => (st, some (.writeback ⟨.binary i, event.op1 + get_value st i.op2_addr⟩))
  | .unary _ => (st, some (.exception ⟨"UnaryInstruction pipelined Op2Fetch"⟩))
  | .jump _ => (st, some (.exception ⟨"JumpInstruction pipelined Op2Fetch"⟩))

/-- `State::handle_event(const Execution&)` (legacy handler). -/
def handle_event_execution (st : State) (event : Execution) : State × Option ExecutionEvent :=
  let st := { st with exec := st.exec + 1 }
  match event.ins with
  | .binary i => (st, some (.writeback ⟨.binary i, calculate i event.op1 event.op2⟩))
  | .unary i => (st, some (.writeback ⟨.unary i, event.op1⟩))
  | .jump i => (st, some (.writeback ⟨.jump i, event.op1⟩))

/-- `State::handle_event(const Writeback&)`. -/
def handle_event_writeback (st : State) (event : Writeback) :
    Except String (State × Option ExecutionEvent) :=
  let st := { st with writeback := st.writeback + 1 }
  match event.ins with
  | .binary i => (put_value st i.res_addr event.res).map (fun st2 => (st2, none))
  | .unary i => (put_value st i.res_addr event.res).map (fun st2 => (st2, none))
  | .jump _ => (put_value st (.direct 0) event.res).map (fun st2 => (st2, none))

/-- `State::handle_event(const Exception&)`. -/
def handle_event_exception (st : State) (_ : Exception) : State × Option ExecutionEvent :=
  ({ st with exceptions := st.exceptions + 1 }, none)

/-- One pass of `State::handle_event(const ExecutionEvent&)` without the
trailing recursion: charge a cycle, dispatch to the per-event handler, and
return the optional follow-up event. -/
def step (st : State) (event : ExecutionEvent) :
    Except String (State × Option ExecutionEvent) :=
  let st := { st with clk := st.clk + 1 }
  match event with
  | .op1Fetch e => .ok (handle_event_op1fetch st e)
  | .op2Fetch e => .ok (handle_event_op2fetch st e)
  | .execution e => .ok (handle_event_execution st e)
  | .writeback e => handle_event_writeback st e
  | .exception e => .ok (handle_event_exception st e)

/-- Rank used to justify termination of the event-chasing recursion: every
follow-up event produced by a handler has strictly smaller rank. -/
def rank : ExecutionEvent → Nat
  | .op1Fetch _ => 3
  | .op2Fetch _ => 2
  | .execution _ => 2
  | .writeback _ => 1
  | .exception _ => 1

/-- `State::handle_event(const ExecutionEvent&)`: charge a cycle, dispatch,
and chase the returned follow-up event recursively. -/
def handle_event (st : State) (event : ExecutionEvent) : Except String State :=
  match h : step st event with
  | .error m => .error m
  | .ok (st2, none) => .ok st2
  | .ok (st2, some ev2) => handle_event st2 ev2
termination_by rank event
decreasing_by
  have gw : ∀ (st : State) (wr : Writeback) (res : Source) (ev : ExecutionEvent),
      (get_writeback st wr res).2 = some ev → rank ev = 1 := by
    intro st wr res ev h2
    cases res <;> simp [get_writeback] at h2 <;> simp [← h2, rank]
  have gf2 : ∀ (st : State) (e : Op2Fetch) (ev : ExecutionEvent),
      (get_fetch2 st e).2 = some ev → rank ev ≤ 2 := by
    intro st e ev h2
    rcases e with ⟨ins, op1⟩
    cases ins with
    | unary i =>
        simp [get_fetch2] at h2
        have := gw _ _ _ _ h2
        omega
    | jump i =>
        simp [get_fetch2] at h2
        have := gw _ _ _ _ h2
        omega
    | binary i =>
        cases hsrc : i.op2_addr with
        | direct s =>
            simp [get_fetch2, hsrc] at h2
            have := gw _ _ _ _ h2
            omega
        | immediate v =>
            simp [get_fetch2, hsrc] at h2
            have := gw _ _ _ _ h2
            omega
        | indirect a =>
            simp [get_fetch2, hsrc] at h2
            simp [← h2, rank]
  cases event with
  | op1Fetch e =>
      rcases e with ⟨ins⟩
      cases ins with
      | binary i =>
          simp [step, handle_event_op1fetch] at h
          have h2 := congrArg Prod.snd h
          simp at h2
          have := gf2 _ _ _ h2
          exact Nat.lt_succ_of_le this
      | unary i =>
          simp [step, handle_event_op1fetch] at h
          simp [← h.2, rank]
      | jump i =>
          simp [step, handle_event_op1fetch] at h
          simp [← h.2, rank]
  | op2Fetch e =>
      rcases e with ⟨ins, op1⟩
      cases ins <;> simp [step, handle_event_op2fetch] at h <;> simp [← h.2, rank]
  | execution e =>
      rcases e with ⟨ins, op1, op2⟩
      cases ins <;> simp [step, handle_event_execution] at h <;> simp [← h.2, rank]
  | writeback e =>
      rcases e with ⟨ins, res⟩
      cases ins with
      | binary i =>
          cases hres : i.res_addr <;>
            simp [step, handle_event_writeback, put_value, hres, Except.map] at h
      | unary i =>
          cases hres : i.res_addr <;>
            simp [step, handle_event_writeback, put_value, hres, Except.map] at h
      | jump i =>
          simp [step, handle_event_writeback, put_value, Except.map] at h
  | exception e =>
      simp [step, handle_event_exception] at h

/-- `State::execute`: charge the fetch+decode cycle, resolve what can be
resolved this cycle, and chase any deferred event. -/
def execute (st : State) (i : Instruction) : Except String State :=
  let st := { st with clk := st.clk + 1 }
  match get_fetch1 st i with
  | (st2, none) => .ok st2
  | (st2, some ev) => handle_event st2 ev

/-- Whether a source is an `IndirectSource` (a memory operand). -/
def isIndirect : Source → Bool
  | .indirect _ => true
  | _ => false

/-- Whether a source is an `ImmidiateSource` (a literal operand). -/
def isImmediate : Source → Bool
  | .immediate _ => true
  | _ => false

/-- Whether a source is a `DirectSource` (a register operand). -/
def isDirect : Source → Bool
  | .direct _ => true
  | _ => false

/-- The effective writeback destination of an instruction: the declared
`res_addr` for unary/binary instructions, and register 0 for jumps. -/
def res_source : Instruction → Source
  | .unary i => i.res_addr
  | .binary i => i.res_addr
  | .jump _ => .direct 0

/-- Number of `Indirect` read operands of an instruction; each one costs a
deferred fetch cycle. -/
def deferred_fetches : Instruction → Nat
  | .unary i => if isIndirect i.op1_addr then 1 else 0
  | .binary i =>
      (if isIndirect i.op1_addr then 1 else 0) + (if isIndirect i.op2_addr then 1 else 0)
  | .jump i => if isIndirect i.offset_addr then 1 else 0

/-- Whether the pipeline defers the writeback to its own cycle: it does so
when the destination is `Indirect`, and also whenever the last operand fetch
before the writeback was itself deferred (the deferred-fetch handlers emit a
`Writeback` event unconditionally). -/
def deferred_writeback : Instruction → Bool
  | .unary i => isIndirect i.res_addr || isIndirect i.op1_addr
  | .binary i => isIndirect i.res_addr || isIndirect i.op2_addr
  | .jump i => isIndirect i.offset_addr

/-- Whether all read operands of an instruction are register/immediate
(`Direct`/`Immediate`) operands. -/
def reads_available : Instruction → Bool
  | .unary i => !isIndirect i.op1_addr
  | .binary i => !isIndirect i.op1_addr && !isIndirect i.op2_addr
  | .jump i => !isIndirect i.offset_addr

/-- The state with the counter fields cleared, used to express that the
pipeline's behaviour depends only on the register file and memory. -/
def zeroCounters (st : State) : State :=
  ⟨st.regs, st.data, 0, 0, 0, 0, 0, 0⟩

/-- Add the counter fields of `st` to those of `t`, keeping the storage of
`t`. -/
def addCounters (st t : State) : State :=
  ⟨t.regs, t.data, st.clk + t.clk, st.fetch1 + t.fetch1, st.fetch2 + t.fetch2,
    st.exec + t.exec, st.writeback + t.writeback, st.exceptions + t.exceptions⟩

/-- The all-zero machine state (`State state {}` of the harness). -/
def state0 : State := ⟨fun _ => 0, fun _ => 0, 0, 0, 0, 0, 0, 0⟩

/-- Scenario-B start state: register 1 = 10, memory cell 4 = 20. -/
def stateB : State :=
  { state0 with
      regs := Function.update state0.regs 1 10,
      data := Function.update state0.data 4 20 }

/-- Start state with register 1 = 7, used to probe the jump writeback. -/
def stateJ : State :=
  { state0 with regs := Function.update state0.regs 1 7 }

/-- Start state with memory cell 0 = 3, used to probe the deferred
second-operand subtraction. -/
def stateS : State :=
  { state0 with data := Function.update state0.data 0 3 }

theorem handle_event_unfold (st : State) (event : ExecutionEvent) :
    handle_event st event =
      match step st event with
      | .error m => .error m
      | .ok (st2, none) => .ok st2
      | .ok (st2, some ev2) => handle_event st2 ev2 := by
  rw [handle_event]
  split <;> rename_i h2 <;> rw [h2]

theorem handle_event_writeback_snd (st : State) (e : Writeback)
    (p : State × Option ExecutionEvent)
    (h : handle_event_writeback st e = .ok p) : p.2 = none := by
  rcases e with ⟨ins, res⟩
  cases ins with
  | unary i =>
      cases h2 : i.res_addr <;>
        simp [handle_event_writeback, put_value, h2, Except.map] at h <;> simp [← h]
  | binary i =>
      cases h2 : i.res_addr <;>
        simp [handle_event_writeback, put_value, h2, Except.map] at h <;> simp [← h]
  | jump i =>
      simp [handle_event_writeback, put_value, Except.map] at h
      simp [← h]

/-- Evaluation rule: consuming an `Exception` event charges one cycle and
bumps the `exceptions` counter. -/
theorem he_exc (st : State) (e : Exception) :
    handle_event st (.exception e) =
      .ok { st with clk := st.clk + 1, exceptions := st.exceptions + 1 } := by
  rw [handle_event_unfold]
  rfl

/-- Evaluation rule: consuming a `Writeback` event charges one cycle and runs
the writeback handler. -/
theorem he_wb (st : State) (e : Writeback) :
    handle_event st (.writeback e) =
      (handle_event_writeback { st with clk := st.clk + 1 } e).map Prod.fst := by
  rw [handle_event_unfold]
  cases h : handle_event_writeback { st with clk := st.clk + 1 } e with
  | error m => simp [step, h, Except.map]
  | ok p =>
      have h2 := handle_event_writeback_snd _ _ _ h
      rcases p with ⟨st2, o⟩
      simp only at h2
      subst h2
      simp [step, h, Except.map]

/-- Evaluation rule: consuming an `Op1Fetch` event charges one cycle, runs the
handler and chases its follow-up event. -/
theorem he_op1 (st : State) (e : Op1Fetch) :
    handle_event st (.op1Fetch e) =
      (match handle_event_op1fetch { st with clk := st.clk + 1 } e with
       | (st2, none) => Except.ok st2
       | (st2, some ev2) => handle_event st2 ev2) := by
  rw [handle_event_unfold]
  simp only [step]
  cases h : handle_event_op1fetch { st with clk := st.clk + 1 } e with
  | mk st2 o => cases o <;> simp

/-- Evaluation rule: consuming an `Op2Fetch` event charges one cycle, runs the
handler and chases its follow-up event. -/
theorem he_op2 (st : State) (e : Op2Fetch) :
    handle_event st (.op2Fetch e) =
      (match handle_event_op2fetch { st with clk := st.clk + 1 } e with
       | (st2, none) => Except.ok st2
       | (st2, some ev2) => handle_event st2 ev2) := by
  rw [handle_event_unfold]
  simp only [step]
  cases h : handle_event_op2fetch { st with clk := st.clk + 1 } e with
  | mk st2 o => cases o <;> simp

/-- Claim C2 (code divergence): on a state with register 1 = 7, executing
`Jump{Direct(1)}` leaves register 0 untouched and instead stores the resolved
offset into memory cell 0 — `get_writeback` resolves a `DirectSource`
destination by writing `data[s.reg]`, so a jump with a register or immediate
offset never reaches register 0, contrary to the claim. -/
theorem claim_C2_jump_direct_offset_eval :
    (execute stateJ (.jump ⟨.direct 1⟩)).map (fun s => (s.regs 0, s.data 0)) =
      .ok (0, 7) ∧
    (execute stateJ (.jump ⟨.direct 1⟩)).map (fun s => (s.regs 0, s.data 0)) ≠
      .ok (7, 0) := by
  constructor
  · rfl
  · intro h
    rw [show (execute stateJ (.jump ⟨.direct 1⟩)).map (fun s => (s.regs 0, s.data 0)) =
        .ok (0, 7) from rfl] at h
    simp at h

/-- Claim C3 (code divergence): from the all-zero state,
`execute(Unary{Immediate(5), Direct(3)})` advances `clk` by exactly 1 as
claimed, but it stores 5 into memory cell 3 and leaves register 3 at 0: the
`Direct` writeback of `get_writeback` writes `data[s.reg]`, the memory array
indexed by the register number, not the register file. -/
theorem claim_C3_scenarioA_eval :
    (execute state0 (.unary ⟨.immediate 5, .direct 3⟩)).map
        (fun s => (s.regs 3, s.data 3, s.clk)) = .ok (0, 5, 1) ∧
    (execute state0 (.unary ⟨.immediate 5, .direct 3⟩)).map
        (fun s => (s.regs 3, s.data 3, s.clk)) ≠ .ok (5, 0, 1) := by
  constructor
  · rfl
  · intro h
    rw [show (execute state0 (.unary ⟨.immediate 5, .direct 3⟩)).map
        (fun s => (s.regs 3, s.data 3, s.clk)) = .ok (0, 5, 1) from rfl] at h
    simp at h

/-- Claim C4 (code divergence): with memory cell 0 = 3, executing
`Binary{Immediate(10), Indirect(0), Direct(1), Sub}` stores 13 = 10 + 3 into
register 1 instead of the claimed 10 − 3 = 7: the deferred `Op2Fetch`
handler computes `event.op1 + get_value(i.op2_addr)` unconditionally,
ignoring the `Sub` operation. -/
theorem claim_C4_deferred_sub_eval :
    (execute stateS (.binary ⟨.immediate 10, .indirect 0, .direct 1, .SUB⟩)).map
        (fun s => s.regs 1) = .ok 13 ∧
    (execute stateS (.binary ⟨.immediate 10, .indirect 0, .direct 1, .SUB⟩)).map
        (fun s => s.regs 1) ≠ .ok 7 := by
  have h0 : (execute stateS (.binary ⟨.immediate 10, .indirect 0, .direct 1, .SUB⟩)).map
      (fun s => s.regs 1) = .ok 13 := by
    simp [execute, get_fetch1, get_fetch2, get_writeback, fetch_direct_source, calculate,
      get_value, put_value, truncate8, handle_event_op1fetch, handle_event_op2fetch,
      handle_event_writeback, handle_event_exception, he_op1, he_op2, he_wb, he_exc,
      Except.map, stateS, state0, Function.update]
  refine ⟨h0, ?_⟩
  intro h
  rw [h0] at h
  simp at h

/-- Claim C5 (code divergence): the logic-fault branch of `put_value` IS
reachable from the public `execute` entry point: a binary instruction whose
second operand is `Indirect` and whose destination is `Immediate` defers into
the `Op2Fetch` handler, which emits a `Writeback` event without the
immediate-destination interception, and the `Writeback` handler then calls
`put_value` on the immediate destination and throws. -/
theorem claim_C5_logic_fault_reachable_eval :
    execute state0 (.binary ⟨.direct 0, .indirect 0, .immediate 0, .ADD⟩) =
      .error "putting into immidiate source is prohibited by logic" := by
  simp [execute, get_fetch1, get_fetch2, get_writeback, fetch_direct_source, calculate,
    get_value, put_value, truncate8, handle_event_op1fetch, handle_event_op2fetch,
    handle_event_writeback, handle_event_exception, he_op1, he_op2, he_wb, he_exc,
    Except.map, state0, Function.update]

/-- Claim C7 (code divergence): `execute(Unary{Indirect(0), Immediate(1)})` —
an instruction whose writeback destination is `Immediate` — does NOT retire
with a recoverable exception: the deferred `Op1Fetch` handler emits a
`Writeback` event directly, and the writeback handler throws the
`std::logic_error` of `put_value` instead of incrementing the `exceptions`
counter and returning normally. -/
theorem claim_C7_immediate_destination_throws_eval :
    execute state0 (.unary ⟨.indirect 0, .immediate 1⟩) =
      .error "putting into immidiate source is prohibited by logic" := by
  simp [execute, get_fetch1, get_fetch2, get_writeback, fetch_direct_source, calculate,
    get_value, put_value, truncate8, handle_event_op1fetch, handle_event_op2fetch,
    handle_event_writeback, handle_event_exception, he_op1, he_op2, he_wb, he_exc,
    Except.map, state0, Function.update]

/-- Claim C9: writing `v` through the low-level `put_value` to `Direct(r)` and
reading `Direct(r)` back through `get_value` yields exactly `v mod 256`, for
every register index, every integer value and every starting state. -/
theorem claim_C9_roundtrip (st : State) (r : Fin 16) (v : Int) :
    (put_value st (.direct r) v).map (fun st2 => get_value st2 (.direct r)) =
      .ok (v % 256) := by
  simp [put_value, get_value, Except.map, truncate8]
  omega

/-- Claim C10 (code divergence): from the all-zero state,
`execute(Binary{Immediate(1), Immediate(2), Direct(5), Add})` mutates memory
cell 5 — a cell that is not the instruction's declared result destination
(register 5) — and leaves register 5 unchanged, because the same-cycle
`Direct` writeback stores into `data[s.reg]`. -/
theorem claim_C10_frame_eval :
    (execute state0 (.binary ⟨.immediate 1, .immediate 2, .direct 5, .ADD⟩)).map
        (fun s => (s.regs 5, s.data 5)) = .ok (0, 3) ∧
    (execute state0 (.binary ⟨.immediate 1, .immediate 2, .direct 5, .ADD⟩)).map
        (fun s => (s.regs 5, s.data 5)) ≠ .ok (3, 0) := by
  constructor
  · rfl
  · intro h
    rw [show (execute state0 (.binary ⟨.immediate 1, .immediate 2, .direct 5, .ADD⟩)).map
        (fun s => (s.regs 5, s.data 5)) = .ok (0, 3) from rfl] at h
    simp at h

/-- Claim C1 (amended): for every instruction whose writeback destination is
not an `Immediate` literal, one call to `execute` increases `clk` by exactly
1 (decode) plus 1 for each `Indirect` read operand plus 1 when the writeback
is deferred — and the writeback is deferred not only for an `Indirect`
destination but also whenever the last operand fetch was itself deferred.
In particular, on a state with register 1 = 10 and memory[4] = 20,
`execute(Binary{Direct(1), Indirect(4), Direct(2), Add})` advances `clk` by
exactly 3 (not 2) and stores 30 in register 2 through a deferred
writeback. -/
theorem claim_C1_cycle_accounting :
    (∀ (st : State) (i : Instruction), isImmediate (res_source i) = false →
      ∃ st2, execute st i = .ok st2 ∧
        st2.clk = st.clk + 1 + deferred_fetches i +
          (if deferred_writeback i then 1 else 0)) ∧
    (∀ st : State, st.regs 1 = 10 → st.data 4 = 20 →
      ∃ st2, execute st (.binary ⟨.direct 1, .indirect 4, .direct 2, .ADD⟩) = .ok st2 ∧
        st2.regs 2 = 30 ∧ st2.clk = st.clk + 3 ∧ st2.writeback = st.writeback + 1) := by
  constructor
  · intro st i h
    cases i with
    | unary u =>
        rcases u with ⟨op1, res⟩
        cases op1 <;> cases res <;>
          simp_all [execute, get_fetch1, get_fetch2, get_writeback, fetch_direct_source,
            calculate, get_value, put_value, truncate8, handle_event_op1fetch,
            handle_event_op2fetch, handle_event_writeback, handle_event_exception,
            he_op1, he_op2, he_wb, he_exc, Except.map, isImmediate, isIndirect,
            res_source, deferred_fetches, deferred_writeback]
    | binary b =>
        rcases b with ⟨op1, op2, res, op⟩
        cases op1 <;> cases op2 <;> cases res <;>
          simp_all [execute, get_fetch1, get_fetch2, get_writeback, fetch_direct_source,
            calculate, get_value, put_value, truncate8, handle_event_op1fetch,
            handle_event_op2fetch, handle_event_writeback, handle_event_exception,
            he_op1, he_op2, he_wb, he_exc, Except.map, isImmediate, isIndirect,
            res_source, deferred_fetches, deferred_writeback]
    | jump j =>
        rcases j with ⟨off⟩
        cases off <;>
          simp_all [execute, get_fetch1, get_fetch2, get_writeback, fetch_direct_source,
            calculate, get_value, put_value, truncate8, handle_event_op1fetch,
            handle_event_op2fetch, handle_event_writeback, handle_event_exception,
            he_op1, he_op2, he_wb, he_exc, Except.map, isImmediate, isIndirect,
            res_source, deferred_fetches, deferred_writeback]
  · intro st h1 h2
    simp [execute, get_fetch1, get_fetch2, get_writeback, fetch_direct_source, calculate,
      get_value, put_value, truncate8, handle_event_op1fetch, handle_event_op2fetch,
      handle_event_writeback, handle_event_exception, he_op1, he_op2, he_wb, he_exc,
      Except.map, h1, h2, Function.update_same]

/-- Witness for claim C1: both parts applied at concrete inputs. -/
theorem claim_C1_witness :
    (∃ st2, execute state0 (.unary ⟨.immediate 5, .indirect 9⟩) = .ok st2 ∧
      st2.clk = state0.clk + 1 + deferred_fetches (.unary ⟨.immediate 5, .indirect 9⟩) +
        (if deferred_writeback (.unary ⟨.immediate 5, .indirect 9⟩) then 1 else 0)) ∧
    (∃ st2, execute stateB (.binary ⟨.direct 1, .indirect 4, .direct 2, .ADD⟩) = .ok st2 ∧
      st2.regs 2 = 30 ∧ st2.clk = stateB.clk + 3 ∧ st2.writeback = stateB.writeback + 1) :=
  ⟨claim_C1_cycle_accounting.1 state0 (.unary ⟨.immediate 5, .indirect 9⟩) rfl,
   claim_C1_cycle_accounting.2 stateB rfl rfl⟩

/-- Counterexample to claim C1 as stated: in Scenario B the cycle counter
advances by 3, not 2, and the writeback counter shows a deferred
writeback. -/
theorem claim_C1_counterexample :
    (execute stateB (.binary ⟨.direct 1, .indirect 4, .direct 2, .ADD⟩)).map
        (fun s => (s.clk, s.writeback)) = .ok (3, 1) ∧
    (execute stateB (.binary ⟨.direct 1, .indirect 4, .direct 2, .ADD⟩)).map
        (fun s => (s.clk, s.writeback)) ≠ .ok (2, 0) := by
  have h0 : (execute stateB (.binary ⟨.direct 1, .indirect 4, .direct 2, .ADD⟩)).map
      (fun s => (s.clk, s.writeback)) = .ok (3, 1) := by
    simp [execute, get_fetch1, get_fetch2, get_writeback, fetch_direct_source, calculate,
      get_value, put_value, truncate8, handle_event_op1fetch, handle_event_op2fetch,
      handle_event_writeback, handle_event_exception, he_op1, he_op2, he_wb, he_exc,
      Except.map, stateB, state0, Function.update]
  refine ⟨h0, ?_⟩
  intro h
  rw [h0] at h
  simp at h

/-- Claim C6 (amended): for any instruction whose read operands are all
`Direct`/`Immediate` and whose writeback destination is `Direct` (a
register), `execute` increments the cycle counter by exactly 1 and leaves
all four stage counters unchanged.  (The claim's original wording also
allowed an `Immediate` destination, which instead faults and costs a second
cycle plus an `exceptions` increment.) -/
theorem claim_C6_fast_path (st : State) (i : Instruction)
    (h1 : reads_available i = true) (h2 : isDirect (res_source i) = true) :
    ∃ st2, execute st i = .ok st2 ∧ st2.clk = st.clk + 1 ∧
      st2.fetch1 = st.fetch1 ∧ st2.fetch2 = st.fetch2 ∧
      st2.writeback = st.writeback ∧ st2.exceptions = st.exceptions := by
  cases i with
  | unary u =>
      rcases u with ⟨op1, res⟩
      cases op1 <;> cases res <;>
        simp_all [execute, get_fetch1, get_fetch2, get_writeback, fetch_direct_source,
          calculate, get_value, put_value, truncate8, Except.map, isDirect, isIndirect,
          res_source, reads_available]
  | binary b =>
      rcases b with ⟨op1, op2, res, op⟩
      cases op1 <;> cases op2 <;> cases res <;>
        simp_all [execute, get_fetch1, get_fetch2, get_writeback, fetch_direct_source,
          calculate, get_value, put_value, truncate8, Except.map, isDirect, isIndirect,
          res_source, reads_available]
  | jump j =>
      rcases j with ⟨off⟩
      cases off <;>
        simp_all [execute, get_fetch1, get_fetch2, get_writeback, fetch_direct_source,
          calculate, get_value, put_value, truncate8, Except.map, isDirect, isIndirect,
          res_source, reads_available]

/-- Witness for claim C6 at a concrete register-only instruction. -/
theorem claim_C6_witness :
    ∃ st2, execute state0 (.unary ⟨.immediate 5, .direct 3⟩) = .ok st2 ∧
      st2.clk = state0.clk + 1 ∧
      st2.fetch1 = state0.fetch1 ∧ st2.fetch2 = state0.fetch2 ∧
      st2.writeback = state0.writeback ∧ st2.exceptions = state0.exceptions :=
  claim_C6_fast_path state0 (.unary ⟨.immediate 5, .direct 3⟩) rfl rfl

/-- Counterexample to claim C6 as stated: `Unary{Direct(0), Immediate(1)}`
has all operands and destination `Direct`/`Immediate`, yet `execute` charges
2 cycles and increments the `exceptions` stage counter. -/
theorem claim_C6_counterexample :
    (execute state0 (.unary ⟨.direct 0, .immediate 1⟩)).map
        (fun s => (s.clk, s.exceptions)) = .ok (2, 1) ∧
    (execute state0 (.unary ⟨.direct 0, .immediate 1⟩)).map
        (fun s => (s.clk, s.exceptions)) ≠ .ok (1, 0) := by
  have h0 : (execute state0 (.unary ⟨.direct 0, .immediate 1⟩)).map
      (fun s => (s.clk, s.exceptions)) = .ok (2, 1) := by
    simp [execute, get_fetch1, get_fetch2, get_writeback, fetch_direct_source, calculate,
      get_value, put_value, truncate8, handle_event_op1fetch, handle_event_op2fetch,
      handle_event_writeback, handle_event_exception, he_op1, he_op2, he_wb, he_exc,
      Except.map, state0, Function.update]
  refine ⟨h0, ?_⟩
  intro h
  rw [h0] at h
  simp at h

/-- The pipeline never reads `clk` or the stage counters: executing on a
state with the counters cleared and then adding the old counter values back
gives exactly `execute`. -/
theorem execute_shift (st : State) (i : Instruction) :
    execute st i = (execute (zeroCounters st) i).map (addCounters st) := by
  cases i with
  | unary u =>
      rcases u with ⟨op1, res⟩
      cases op1 <;> cases res <;>
        simp [execute, get_fetch1, get_fetch2, get_writeback, fetch_direct_source,
          calculate, get_value, put_value, truncate8, handle_event_op1fetch,
          handle_event_op2fetch, handle_event_writeback, handle_event_exception,
          he_op1, he_op2, he_wb, he_exc, Except.map, zeroCounters, addCounters]
  | binary b =>
      rcases b with ⟨op1, op2, res, op⟩
      cases op1 <;> cases op2 <;> cases res <;>
        simp [execute, get_fetch1, get_fetch2, get_writeback, fetch_direct_source,
          calculate, get_value, put_value, truncate8, handle_event_op1fetch,
          handle_event_op2fetch, handle_event_writeback, handle_event_exception,
          he_op1, he_op2, he_wb, he_exc, Except.map, zeroCounters, addCounters]
  | jump j =>
      rcases j with ⟨off⟩
      cases off <;>
        simp [execute, get_fetch1, get_fetch2, get_writeback, fetch_direct_source,
          calculate, get_value, put_value, truncate8, handle_event_op1fetch,
          handle_event_op2fetch, handle_event_writeback, handle_event_exception,
          he_op1, he_op2, he_wb, he_exc, Except.map, zeroCounters, addCounters]

/-- Claim C8: each stage counter is incremented exactly once by its handler
and by no other handler, and the counters (together with `clk`) are purely
observational — two states that agree on the register file and memory
produce identical storage results and identical counter increments under the
same instruction. -/
theorem claim_C8_counters_observational :
    (∀ (st : State) (e : Op1Fetch),
        (handle_event_op1fetch st e).1.fetch1 = st.fetch1 + 1 ∧
        (handle_event_op1fetch st e).1.fetch2 = st.fetch2 ∧
        (handle_event_op1fetch st e).1.writeback = st.writeback ∧
        (handle_event_op1fetch st e).1.exceptions = st.exceptions) ∧
    (∀ (st : State) (e : Op2Fetch),
        (handle_event_op2fetch st e).1.fetch2 = st.fetch2 + 1 ∧
        (handle_event_op2fetch st e).1.fetch1 = st.fetch1 ∧
        (handle_event_op2fetch st e).1.writeback = st.writeback ∧
        (handle_event_op2fetch st e).1.exceptions = st.exceptions) ∧
    (∀ (st : State) (e : Writeback),
        (handle_event_writeback st e).map
            (fun p => (p.1.writeback, p.1.fetch1, p.1.fetch2, p.1.exceptions)) =
          (handle_event_writeback st e).map
            (fun _ => (st.writeback + 1, st.fetch1, st.fetch2, st.exceptions))) ∧
    (∀ (st : State) (e : Exception),
        (handle_event_exception st e).1.exceptions = st.exceptions + 1 ∧
        (handle_event_exception st e).1.fetch1 = st.fetch1 ∧
        (handle_event_exception st e).1.fetch2 = st.fetch2 ∧
        (handle_event_exception st e).1.writeback = st.writeback) ∧
    (∀ (i : Instruction) (st1 st2 : State), st1.regs = st2.regs → st1.data = st2.data →
        (∃ m, execute st1 i = .error m ∧ execute st2 i = .error m) ∨
        (∃ t1 t2, execute st1 i = .ok t1 ∧ execute st2 i = .ok t2 ∧
          t1.regs = t2.regs ∧ t1.data = t2.data ∧
          t1.clk = st1.clk + (t2.clk - st2.clk) ∧
          t1.fetch1 = st1.fetch1 + (t2.fetch1 - st2.fetch1) ∧
          t1.fetch2 = st1.fetch2 + (t2.fetch2 - st2.fetch2) ∧
          t1.writeback = st1.writeback + (t2.writeback - st2.writeback) ∧
          t1.exceptions = st1.exceptions + (t2.exceptions - st2.exceptions))) := by
  refine ⟨?_, ?_, ?_, ?_, ?_⟩
  · intro st e
    rcases e with ⟨ins⟩
    cases ins with
    | unary i => simp [handle_event_op1fetch]
    | jump i => simp [handle_event_op1fetch]
    | binary i =>
        cases hsrc : i.op2_addr <;> cases hres : i.res_addr <;>
          simp [handle_event_op1fetch, get_fetch2, get_writeback, fetch_direct_source,
            hsrc, hres]
  · intro st e
    rcases e with ⟨ins, op1⟩
    cases ins <;> simp [handle_event_op2fetch]
  · intro st e
    rcases e with ⟨ins, res⟩
    cases ins with
    | unary i =>
        cases h2 : i.res_addr <;>
          simp [handle_event_writeback, put_value, h2, Except.map]
    | binary i =>
        cases h2 : i.res_addr <;>
          simp [handle_event_writeback, put_value, h2, Except.map]
    | jump i =>
        simp [handle_event_writeback, put_value, Except.map]
  · intro st e
    simp [handle_event_exception]
  · intro i st1 st2 hr hd
    have e1 := execute_shift st1 i
    have e2 := execute_shift st2 i
    have hz : zeroCounters st1 = zeroCounters st2 := by
      simp [zeroCounters, hr, hd]
    rw [hz] at e1
    cases hcore : execute (zeroCounters st2) i with
    | error m =>
        left
        refine ⟨m, ?_, ?_⟩
        · rw [e1, hcore]
          rfl
        · rw [e2, hcore]
          rfl
    | ok t =>
        right
        refine ⟨addCounters st1 t, addCounters st2 t, ?_, ?_, rfl, rfl, ?_, ?_, ?_, ?_, ?_⟩
        · rw [e1, hcore]
          rfl
        · rw [e2, hcore]
          rfl
        all_goals simp [addCounters]

/-- Witness for claim C8: the observational part applied to two concrete
states that differ only in `clk` and a stage counter. -/
theorem claim_C8_witness :
    (∃ m, execute { state0 with clk := 5, fetch1 := 2 } (.unary ⟨.immediate 5, .direct 3⟩) =
            .error m ∧
          execute state0 (.unary ⟨.immediate 5, .direct 3⟩) = .error m) ∨
    (∃ t1 t2,
        execute { state0 with clk := 5, fetch1 := 2 } (.unary ⟨.immediate 5, .direct 3⟩) =
          .ok t1 ∧
        execute state0 (.unary ⟨.immediate 5, .direct 3⟩) = .ok t2 ∧
        t1.regs = t2.regs ∧ t1.data = t2.data ∧
        t1.clk = 5 + (t2.clk - state0.clk) ∧
        t1.fetch1 = 2 + (t2.fetch1 - state0.fetch1) ∧
        t1.fetch2 = 0 + (t2.fetch2 - state0.fetch2) ∧
        t1.writeback = 0 + (t2.writeback - state0.writeback) ∧
        t1.exceptions = 0 + (t2.exceptions - state0.exceptions)) :=
  claim_C8_counters_observational.2.2.2.2 (.unary ⟨.immediate 5, .direct 3⟩)
    { state0 with clk := 5, fetch1 := 2 } state0 rfl rfl

end CycleSim
